import Mathlib

/-!
# Verification of the dynamic Kubernetes object client

Shallow embedding of `KubernetesObjectApi` (the dynamic-resource URI
construction, resource-metadata resolver cache, header generation, request
dispatch and watch decoding) from the repository's TypeScript source, together
with theorems settling the specification claims.

Modelling conventions:
* TypeScript `string | undefined` fields become `Option String`; JavaScript
  falsiness of such a field (`!spec.kind` is true for `undefined`, `null` and
  `""`) is the predicate `strFalsy`.
* JavaScript objects used as string-keyed records (headers, the resource
  cache, query parameters) become association lists with JavaScript
  assignment semantics (`hset` replaces an existing key in place, else
  appends).
* `encodeURIComponent` and `String.prototype.toLowerCase` are embedded
  directly (UTF-8 percent-encoding with the ECMAScript unreserved set;
  ASCII lower-casing, which coincides with JavaScript on the ASCII path
  segments the client produces).
-/

namespace K8sClient

/-- JavaScript falsiness of an optional string: `undefined`/absent or `""`. -/
def strFalsy : Option String → Bool
  | none => true
  | some s => s == ""

/-- The forward-slash character, used by `apiVersion.includes('/')`. -/
def slashChar : Char := Char.ofNat 47

/-- The apostrophe character (part of `encodeURIComponent`'s unreserved set). -/
def apostropheChar : Char := Char.ofNat 39

/-- `String.prototype.includes` specialised to a single character. -/
def jsIncludesChar (s : String) (c : Char) : Bool := s.data.contains c

/-- `String.prototype.toLowerCase`, restricted to ASCII case mapping. -/
def jsToLower (s : String) : String := String.mk (s.data.map Char.toLower)

/-- Characters `encodeURIComponent` leaves unescaped:
`A`-`Z`, `a`-`z`, `0`-`9` and `- _ . ! ~ * ' ( )`. -/
def isUriUnescaped (c : Char) : Bool :=
  c.isAlphanum ||
    [Char.ofNat 45, Char.ofNat 95, Char.ofNat 46, Char.ofNat 33, Char.ofNat 126,
      Char.ofNat 42, apostropheChar, Char.ofNat 40, Char.ofNat 41].contains c

/-- UTF-8 encoding of a Unicode code point, as a list of byte values. -/
def utf8Bytes (n : Nat) : List Nat :=
  if n < 128 then [n]
  else if n < 2048 then [192 + n / 64, 128 + n % 64]
  else if n < 65536 then [224 + n / 4096, 128 + (n / 64) % 64, 128 + n % 64]
  else [240 + n / 262144, 128 + (n / 4096) % 64, 128 + (n / 64) % 64, 128 + n % 64]

/-- Upper-case hexadecimal digit for a value below 16. -/
def hexDigit (n : Nat) : Char :=
  if n < 10 then Char.ofNat (48 + n) else Char.ofNat (55 + n)

/-- `%XX` escape of one byte, upper-case hex as produced by JavaScript. -/
def percentByte (b : Nat) : String :=
  String.mk [Char.ofNat 37, hexDigit (b / 16), hexDigit (b % 16)]

/-- JavaScript's `encodeURIComponent`. -/
def encodeURIComponent (s : String) : String :=
  s.data.foldl
    (fun acc c =>
      if isUriUnescaped c then acc.push c
      else acc ++ String.join ((utf8Bytes c.toNat).map percentByte))
    ""

/-- Split a string at every occurrence of a character
(JavaScript `String.prototype.split` with a one-character separator). -/
def splitChar (c : Char) (s : String) : List String :=
  (s.data.foldr
    (fun ch acc =>
      match acc with
      | cur :: rest => if ch == c then [] :: cur :: rest else (ch :: cur) :: rest
      | [] => [[ch]])
    [[]]).map String.mk

/-- JavaScript `Array.prototype.join('/')`. -/
def joinSlash : List String → String
  | [] => ""
  | [a] => a
  | a :: b :: rest => a ++ "/" ++ joinSlash (b :: rest)

/-- `version.charAt(0).toUpperCase() + version.slice(1)`. -/
def capitalizeFirst (s : String) : String :=
  match s.data with
  | [] => ""
  | c :: cs => String.mk (c.toUpper :: cs)

/-! ## Data model -/

/-- `V1APIResource`: one entry of a discovery response — `name` is the plural
resource name used in URIs, `kind` the object kind, `namespaced` the scope
flag. -/
structure V1APIResource where
  name : String
  kind : String
  namespaced : Bool
deriving Repr, DecidableEq

/-- `V1APIResourceList`: the discovery response for one group-version. -/
structure V1APIResourceList where
  resources : List V1APIResource
deriving Repr, DecidableEq

/-- `metadata` of a Kubernetes object: `ns` embeds `metadata.namespace`
(`namespace` is a Lean keyword); `mrest` stands for all remaining metadata
fields, which the client never touches. -/
structure ObjectMeta where
  name : Option String := none
  ns : Option String := none
  mrest : List (String × String) := []
deriving Repr, DecidableEq

/-- A `KubernetesObject` spec as the client sees it; `rest` stands for all
fields other than `apiVersion`, `kind` and `metadata`. -/
structure KubernetesObject where
  apiVersion : Option String := none
  kind : Option String := none
  metadata : Option ObjectMeta := none
  rest : List (String × String) := []
deriving Repr, DecidableEq

/-- The six Kubernetes API verbs of the client. -/
inductive KubernetesApiAction where
  | create
  | delete
  | patch
  | read
  | list
  | replace
deriving Repr, DecidableEq

/-- Errors thrown by `specUriPath`, named after the specification's taxonomy:
`invalidSpec` for the two thrown `Error`s about missing spec properties,
`unknownResource` for an unrecognized apiVersion/kind pair. -/
inductive SpecError where
  | invalidSpec (msg : String)
  | unknownResource (apiVersion kind : String)
deriving Repr, DecidableEq

/-- Result of a successful `specUriPath` call: the (mutated) spec object and
the returned URI path. -/
structure UriPathResult where
  spec : KubernetesObject
  path : String
deriving Repr, DecidableEq

/-! ## Path building (`apiVersionPath`, `specUriPath`) -/

/-- The root segment chosen by `apiVersionPath`:
`'apis'` when the apiVersion contains a `/`, else `'api'`. -/
def rootSeg (apiVersion : String) : String :=
  if jsIncludesChar apiVersion slashChar then "apis" else "api"

/-- `apiVersionPath`: root of the API path up to the API version. -/
def apiVersionPath (basePath apiVersion : String) : String :=
  joinSlash [basePath, rootSeg apiVersion, apiVersion]

/-- First mutation block of `specUriPath`: default `apiVersion` to `"v1"` and
`metadata` to `{}` when falsy/absent. -/
def specDefaulted (spec : KubernetesObject) : KubernetesObject :=
  let s1 := if strFalsy spec.apiVersion then { spec with apiVersion := some "v1" } else spec
  if s1.metadata.isNone then { s1 with metadata := some {} } else s1

/-- Second mutation block of `specUriPath`: fill `metadata.namespace` with the
configured default namespace for namespaced resources on non-list actions. -/
def nsFill (defaultNamespace : String) (res : V1APIResource) (action : KubernetesApiAction)
    (spec : KubernetesObject) : KubernetesObject :=
  let md := spec.metadata.getD {}
  if res.namespaced && strFalsy md.ns && !(action == KubernetesApiAction.list) then
    { spec with metadata := some { md with ns := some defaultNamespace } }
  else spec

/-- Segment assembly and final join of `specUriPath`. -/
def buildParts (basePath : String) (res : V1APIResource) (action : KubernetesApiAction)
    (spec : KubernetesObject) : Except SpecError UriPathResult :=
  let md := spec.metadata.getD {}
  let parts0 := [apiVersionPath basePath (spec.apiVersion.getD "")]
  let parts1 :=
    if res.namespaced && !(strFalsy md.ns) then
      parts0 ++ ["namespaces", encodeURIComponent (md.ns.getD "")]
    else parts0
  let parts2 := parts1 ++ [res.name]
  if !(action == KubernetesApiAction.create) && !(action == KubernetesApiAction.list) then
    if strFalsy md.name then
      Except.error (SpecError.invalidSpec "Required spec property name is not set")
    else
      Except.ok ⟨spec, jsToLower (joinSlash
        (parts2 ++ [encodeURIComponent (md.name.getD "")]))⟩
  else
    Except.ok ⟨spec, jsToLower (joinSlash parts2)⟩

/-- `specUriPath`: construct the resource URI path from spec information.
The resolver (`this.resource`) is passed in as the function `resourceOf`
from (apiVersion, kind) to the optional resource descriptor. -/
def specUriPath (basePath defaultNamespace : String)
    (resourceOf : String → String → Option V1APIResource)
    (spec : KubernetesObject) (action : KubernetesApiAction) :
    Except SpecError UriPathResult :=
  if strFalsy spec.kind then
    Except.error (SpecError.invalidSpec "Required spec property kind is not set")
  else
    let s := specDefaulted spec
    match resourceOf (s.apiVersion.getD "") (s.kind.getD "") with
    | none => Except.error (SpecError.unknownResource (s.apiVersion.getD "") (s.kind.getD ""))
    | some res => buildParts basePath res action (nsFill defaultNamespace res action s)

/-- Effective apiVersion after defaulting. -/
def effApiVersion (spec : KubernetesObject) : String :=
  if strFalsy spec.apiVersion then "v1" else spec.apiVersion.getD ""

/-- Effective kind string as passed to the resolver. -/
def effKind (spec : KubernetesObject) : String := spec.kind.getD ""

/-- Effective `metadata.name` as read by the path builder. -/
def effName (spec : KubernetesObject) : Option String := (spec.metadata.getD {}).name

/-- Caller-supplied `metadata.namespace` before any default filling. -/
def effNs (spec : KubernetesObject) : Option String := (spec.metadata.getD {}).ns

/-- The namespace segment pair of the claim formula: `["namespaces", ns]`
(percent-encoded) exactly when the descriptor is namespaced and the spec's
namespace is set. -/
def nsSegs (res : V1APIResource) (spec : KubernetesObject) : List String :=
  if res.namespaced && !(strFalsy (spec.metadata.getD {}).ns) then
    ["namespaces", encodeURIComponent ((spec.metadata.getD {}).ns.getD "")]
  else []

/-- The object-name segment of the claim formula: the percent-encoded name
exactly when the action is read, replace, patch or delete. -/
def nameSegs (action : KubernetesApiAction) (spec : KubernetesObject) : List String :=
  match action with
  | KubernetesApiAction.read | KubernetesApiAction.replace
  | KubernetesApiAction.patch | KubernetesApiAction.delete =>
    [encodeURIComponent ((spec.metadata.getD {}).name.getD "")]
  | _ => []

end K8sClient

namespace K8sClient

end K8sClient

deriving instance DecidableEq for Except

namespace K8sClient

/-- A sample namespaced descriptor used in concrete evaluations. -/
def deploymentRes : V1APIResource := ⟨"deployments", "Deployment", true⟩

/-- A sample resolver knowing only apps/v1 Deployment. -/
def sampleResolver (av k : String) : Option V1APIResource :=
  if av == "apps/v1" && k == "Deployment" then some deploymentRes else none

/-- A sample spec for apps/v1 Deployment Foo in namespace Default. -/
def sampleSpec : KubernetesObject :=
  { apiVersion := some "apps/v1"
    kind := some "Deployment"
    metadata := some { name := some "Foo", ns := some "Default" } }

/-- A sample namespaced core-group descriptor. -/
def podRes : V1APIResource := ⟨"pods", "Pod", true⟩

/-- A sample resolver knowing only v1 Pod. -/
def coreResolver (av k : String) : Option V1APIResource :=
  if av == "v1" && k == "Pod" then some podRes else none

/-- Result of a read of Pod Foo with absent apiVersion and namespace:
apiVersion defaulted to v1, namespace filled with ctxns. -/
def filledPodResult : UriPathResult :=
  ⟨{ apiVersion := some "v1", kind := some "Pod",
     metadata := some { name := some "Foo", ns := some "ctxns" } },
   "https://h/api/v1/namespaces/ctxns/pods/foo"⟩

/-- Result of a list of Pods with a supplied name and namespace Given: the
name is not appended and the namespace is kept as supplied. -/
def listPodResult : UriPathResult :=
  ⟨{ apiVersion := some "v1", kind := some "Pod",
     metadata := some { name := some "Given", ns := some "Given" } },
   "https://h/api/v1/namespaces/given/pods"⟩

/-! ## String-keyed records with JavaScript assignment semantics -/

/-- A JavaScript object used as a string-keyed record (headers, cache,
query parameters). Keys are case-sensitive, as in JavaScript. -/
abbrev JsRecord (β : Type) := List (String × β)

/-- Property read `obj[k]`. -/
def jsGet {β : Type} (r : JsRecord β) (k : String) : Option β :=
  (r.find? (fun p => p.1 == k)).map (fun p => p.2)

/-- Property write `obj[k] = v`: replace the existing entry in place, else
append. -/
def jsSet {β : Type} : JsRecord β → String → β → JsRecord β
  | [], k, v => [(k, v)]
  | p :: t, k, v => if p.1 == k then (k, v) :: t else p :: jsSet t k v

/-- `Object.assign(base, upd)`: write every entry of `upd` into `base` in
order. -/
def jsAssign {β : Type} (base upd : JsRecord β) : JsRecord β :=
  upd.foldl (fun acc p => jsSet acc p.1 p.2) base

/-- The value the last write of key `k` in `upd` would leave behind — i.e.
the value of `k` in a JavaScript object literal with these entries. -/
def lastVal {β : Type} : JsRecord β → String → Option β
  | [], _ => none
  | p :: t, k =>
    match lastVal t k with
    | some v => some v
    | none => if p.1 == k then some p.2 else none

/-! ## Header generation (`generateHeaders`) -/

/-- The three non-apply patch Content-Type values of
`KubernetesPatchStrategies`. -/
def jsonPatchMediaType : String := "application/json-patch+json"

/-- Simple merge patch media type. -/
def mergePatchMediaType : String := "application/merge-patch+json"

/-- Strategic merge patch media type, the default for patch requests. -/
def strategicMergePatchMediaType : String := "application/strategic-merge-patch+json"

/-- `generateHeaders`: copy the instance default headers, set the `accept`
default, set the `content-type` default when the action is `PATCH`, then let
the caller's headers override. The source's `action` parameter defaults to
`'GET'`; callers other than `patch` rely on that default, which is made
explicit at each call site here. -/
def generateHeaders (defaultHeaders : JsRecord String)
    (optionsHeaders : JsRecord String) (action : String) : JsRecord String :=
  let headers := jsAssign [] defaultHeaders
  let headers := jsSet headers "accept" "application/json"
  let headers :=
    if action == "PATCH" then jsSet headers "content-type" strategicMergePatchMediaType
    else headers
  jsAssign headers optionsHeaders

/-- The `action` string each Object API operation passes to
`generateHeaders`: only `patch` passes `'PATCH'`; every other call site uses
the default `'GET'`. -/
def opHeaderAction : KubernetesApiAction → String
  | KubernetesApiAction.patch => "PATCH"
  | _ => "GET"

/-- Headers attached by operation `op` given the caller's `optionsHeaders`. -/
def opHeaders (op : KubernetesApiAction) (defaultHeaders optionsHeaders : JsRecord String) :
    JsRecord String :=
  generateHeaders defaultHeaders optionsHeaders (opHeaderAction op)

/-! ## Resource resolver with cache (`resource`) -/

/-- `apiVersionResourceCache`: groupVersion → cached discovery response. -/
abbrev ResourceCache := JsRecord V1APIResourceList

/-- `list.resources.find(r => r.kind === kind)`. -/
def findKind (l : V1APIResourceList) (kind : String) : Option V1APIResource :=
  l.resources.find? (fun r => r.kind == kind)

/-- Outcome of one `resource(apiVersion, kind)` call: the optional
descriptor, the cache afterwards, and the number of discovery fetches
performed during the call. -/
structure ResourceOutcome where
  result : Option V1APIResource
  cache : ResourceCache
  fetches : Nat
deriving Repr, DecidableEq

/-- `resource`: look the kind up in the cached discovery response for
`apiVersion`; on cache miss or kind-not-found, perform one discovery fetch
(modelled by the oracle `fetch`), replace the cache entry for `apiVersion`
with the fresh response, and search again. -/
def resource (fetch : String → V1APIResourceList) (cache : ResourceCache)
    (apiVersion kind : String) : ResourceOutcome :=
  match jsGet cache apiVersion with
  | some l =>
    match findKind l kind with
    | some r => ⟨some r, cache, 0⟩
    | none =>
      let fresh := fetch apiVersion
      ⟨findKind fresh kind, jsSet cache apiVersion fresh, 1⟩
  | none =>
    let fresh := fetch apiVersion
    ⟨findKind fresh kind, jsSet cache apiVersion fresh, 1⟩

/-! ## Serialization-type selection and request dispatch -/

/-- Group/version split of an `apiVersion` string (`groupVersion`). -/
structure GroupVersion where
  group : String
  version : String
deriving Repr, DecidableEq

/-- `groupVersion`: a bare version belongs to group `core`; otherwise the
part before the first `/` is the group and the part after it the version. -/
def groupVersion (apiVersion : String) : GroupVersion :=
  match splitChar slashChar apiVersion with
  | [_] => ⟨"core", apiVersion⟩
  | a :: b :: _ => ⟨a, b⟩
  | [] => ⟨"core", apiVersion⟩

/-- `getSerializationType`: the registered model name `<Version><Kind>` with
the version capitalized, or `KubernetesObject` when either input is
undefined. -/
def getSerializationType (apiVersion kind : Option String) : String :=
  match apiVersion, kind with
  | some av, some k => capitalizeFirst (groupVersion av).version ++ k
  | _, _ => "KubernetesObject"

/-- The wire body of an HTTP response, exposing the two fields the client
inspects (`body.apiVersion`, `body.kind`); `fields` stands for the rest of
the payload. -/
structure ResponseBody where
  apiVersion : Option String := none
  kind : Option String := none
  fields : List (String × String) := []
deriving Repr, DecidableEq

/-- Result of `ObjectSerializer.deserialize(raw, typeName)`. The serializer
itself is an external collaborator (its conversion internals live outside
the dynamic client); the claims are about which shape name drives it, so the
model records the raw body together with the shape name used to decode it. -/
structure Deserialized where
  raw : ResponseBody
  typeName : String
deriving Repr, DecidableEq

/-- `ObjectSerializer.deserialize` at the model boundary: tag the body with
the shape name it is decoded under. -/
def deserialize (raw : ResponseBody) (typeName : String) : Deserialized := ⟨raw, typeName⟩

/-- What the transport (`request(...)` callback) delivered: either a
connection-level error or a response with an optional status code and a
body. -/
inductive TransportEvent where
  | transportError (message : String)
  | response (statusCode : Option Nat) (body : ResponseBody)
deriving Repr, DecidableEq

/-- Errors produced by `requestPromise`: a transport error rejected
unmodified, or an `HttpError` carrying the status code and the decoded
body. -/
inductive RequestError where
  | transport (message : String)
  | http (statusCode : Option Nat) (body : Deserialized)
deriving Repr, DecidableEq

/-- The decode shape name `requestPromise` uses: the declared `type`
argument when one was passed, else `getSerializationType(body.apiVersion,
body.kind)`. -/
def requestPromiseDecodeType (declaredType : Option String) (body : ResponseBody) : String :=
  match declaredType with
  | some t => t
  | none => getSerializationType body.apiVersion body.kind

/-- `response.statusCode && response.statusCode >= 200 && response.statusCode <= 299`
(a missing or zero status code is falsy). -/
def is2xx : Option Nat → Bool
  | none => false
  | some c => !(c == 0) && decide (200 ≤ c) && decide (c ≤ 299)

/-- `requestPromise` response handling: reject transport errors unmodified;
otherwise decode the body (with the declared type if given, else the type
derived from the body itself) and resolve on 2xx or reject with an
`HttpError` on anything else. -/
def requestPromise (declaredType : Option String) (ev : TransportEvent) :
    Except RequestError Deserialized :=
  match ev with
  | TransportEvent.transportError e => Except.error (RequestError.transport e)
  | TransportEvent.response code raw =>
    let body := deserialize raw (requestPromiseDecodeType declaredType raw)
    if is2xx code then Except.ok body
    else Except.error (RequestError.http code body)

/-- The `type` argument each Object API operation passes to
`requestPromise`: only `delete` passes an explicit `'V1Status'`; the other
five pass none. -/
def opDeclaredType : KubernetesApiAction → Option String
  | KubernetesApiAction.delete => some "V1Status"
  | _ => none

/-- The decoded body a `requestPromise` outcome carries: the resolved body
on success, the body inside the `HttpError` on a non-2xx response, nothing
on a transport error. -/
def decodedBody? : Except RequestError Deserialized → Option Deserialized
  | Except.ok b => some b
  | Except.error (RequestError.http _ b) => some b
  | Except.error (RequestError.transport _) => none

/-- An operation-level error: a spec/resolver error raised before the
request, or a request error. -/
inductive OperationError where
  | spec (e : SpecError)
  | request (e : RequestError)
deriving Repr, DecidableEq

/-- Trace of one Object API operation: its outcome and how many network
requests were attempted for the operation itself. -/
structure OperationTrace where
  result : Except OperationError Deserialized
  requests : Nat
deriving Repr, DecidableEq

/-- The operation pipeline after path building: a `specUriPath` failure is
surfaced as-is with zero operation requests attempted; otherwise the one
network request is performed and handled by `requestPromise`. -/
def performRequest (declaredType : Option String) (ev : TransportEvent)
    (pathResult : Except SpecError UriPathResult) : OperationTrace :=
  match pathResult with
  | Except.error e => ⟨Except.error (OperationError.spec e), 0⟩
  | Except.ok _ =>
    ⟨(requestPromise declaredType ev).mapError OperationError.request, 1⟩

/-- Full operation trace for operation `op` on `spec`. -/
def runOperation (basePath defaultNamespace : String)
    (resourceOf : String → String → Option V1APIResource)
    (spec : KubernetesObject) (op : KubernetesApiAction) (ev : TransportEvent) :
    OperationTrace :=
  performRequest (opDeclaredType op) ev
    (specUriPath basePath defaultNamespace resourceOf spec op)

/-! ## The outgoing patch request (`patch`) -/

/-- String form a boolean takes once serialized into a query parameter. -/
def jsBoolString (b : Bool) : String := if b then "true" else "false"

/-- Assembled options of an outgoing HTTP request. -/
structure RequestOptions where
  method : String
  qs : JsRecord String
  headers : JsRecord String
  uri : String
deriving Repr, DecidableEq

/-- The query parameters the `patch` operation builds, in source order;
`force` is written whenever it is supplied, with no condition on the
request's Content-Type. -/
def patchQueryParameters (pretty dryRun fieldManager : Option String)
    (force : Option Bool) : JsRecord String :=
  let q : JsRecord String := []
  let q := match pretty with | some p => jsSet q "pretty" p | none => q
  let q := match dryRun with | some d => jsSet q "dryRun" d | none => q
  let q := match fieldManager with | some f => jsSet q "fieldManager" f | none => q
  match force with | some b => jsSet q "force" (jsBoolString b) | none => q

/-- The request options the `patch` operation sends. -/
def patchRequestOptions (defaultHeaders : JsRecord String) (uri : String)
    (pretty dryRun fieldManager : Option String) (force : Option Bool)
    (optionsHeaders : JsRecord String) : RequestOptions :=
  { method := "PATCH"
    qs := patchQueryParameters pretty dryRun fieldManager force
    headers := generateHeaders defaultHeaders optionsHeaders "PATCH"
    uri := uri }

/-! ## Watch event decoding (`watch`) -/

/-- The serialization type the `watch` method computes, once per session,
from the caller's watched resource: `getSerializationType(resource.apiVersion,
resource.kind)`. -/
def watchSerializationType (resourceApiVersion resourceKind : String) : String :=
  getSerializationType (some resourceApiVersion) (some resourceKind)

/-- The object the watch callback hands to the caller: the event object
re-decoded with the session's serialization type. -/
def watchDeliveredObject (resourceApiVersion resourceKind : String)
    (apiObj : ResponseBody) : Deserialized :=
  deserialize apiObj (watchSerializationType resourceApiVersion resourceKind)

/-- The discovery oracle for the C2 witness: apps/v1 lists only
Deployment. -/
def sampleFetch (gv : String) : V1APIResourceList :=
  if gv == "apps/v1" then ⟨[deploymentRes]⟩ else ⟨[]⟩

/-- The cache state after one discovery fetch of apps/v1. -/
def sampleCacheAfter : ResourceCache := [("apps/v1", ⟨[deploymentRes]⟩)]

/-- A sample Status response body for a 409 Conflict. -/
def statusBody409 : ResponseBody :=
  { apiVersion := some "v1", kind := some "Status",
    fields := [("reason", "AlreadyExists")] }

/-! ## Record lemmas -/

theorem jsGet_jsSet_self {β : Type} (r : JsRecord β) (k : String) (v : β) :
    jsGet (jsSet r k v) k = some v := by
  induction r with
  | nil => simp [jsGet, jsSet]
  | cons p t ih =>
    by_cases h : p.1 == k
    · simp [jsGet, jsSet, h]
    · simp only [jsSet, h, Bool.false_eq_true, if_false]
      simpa [jsGet, List.find?, h] using ih

theorem jsGet_jsSet_of_ne {β : Type} (r : JsRecord β) {k k' : String}
    (h : (k == k') = false) (v : β) : jsGet (jsSet r k v) k' = jsGet r k' := by
  induction r with
  | nil => simp [jsGet, jsSet, h]
  | cons p t ih =>
    by_cases hp : p.1 == k
    · have hp' : p.1 = k := eq_of_beq hp
      simp [jsGet, jsSet, hp, List.find?, hp', h]
    · by_cases hk : p.1 == k'
      · simp [jsGet, jsSet, hp, List.find?, hk]
      · simpa [jsGet, jsSet, hp, List.find?, hk] using ih

theorem jsGet_jsAssign {β : Type} (upd base : JsRecord β) (k : String) :
    jsGet (jsAssign base upd) k =
      match lastVal upd k with
      | some v => some v
      | none => jsGet base k := by
  induction upd generalizing base with
  | nil => simp [jsAssign, lastVal]
  | cons p t ih =>
    have hstep : jsAssign base (p :: t) = jsAssign (jsSet base p.1 p.2) t := rfl
    rw [hstep, ih]
    cases hl : lastVal t k with
    | some v => simp [lastVal, hl]
    | none =>
      by_cases hp : p.1 == k
      · have hp' : p.1 = k := eq_of_beq hp
        simp only [lastVal, hl, hp, if_true]
        rw [hp', jsGet_jsSet_self]
      · simp only [lastVal, hl, hp, Bool.false_eq_true, if_false]
        rw [jsGet_jsSet_of_ne base (Bool.eq_false_iff.mpr hp) p.2]

/-! ## Path-builder structural lemmas -/

theorem joinSlash_head3 (b c d : String) (rest : List String) :
    joinSlash (joinSlash [b, c, d] :: rest) = joinSlash (b :: c :: d :: rest) := by
  cases rest <;> simp [joinSlash, String.append_assoc]

theorem specDefaulted_apiVersion (spec : KubernetesObject) :
    (specDefaulted spec).apiVersion =
      if strFalsy spec.apiVersion then some "v1" else spec.apiVersion := by
  unfold specDefaulted
  by_cases h : strFalsy spec.apiVersion <;> simp [h] <;> split <;> rfl

theorem specDefaulted_kind (spec : KubernetesObject) :
    (specDefaulted spec).kind = spec.kind := by
  unfold specDefaulted
  by_cases h : strFalsy spec.apiVersion <;> simp [h] <;> split <;> rfl

theorem specDefaulted_rest (spec : KubernetesObject) :
    (specDefaulted spec).rest = spec.rest := by
  unfold specDefaulted
  by_cases h : strFalsy spec.apiVersion <;> simp [h] <;> split <;> rfl

theorem specDefaulted_metadata (spec : KubernetesObject) :
    (specDefaulted spec).metadata = some (spec.metadata.getD {}) := by
  unfold specDefaulted
  by_cases h : strFalsy spec.apiVersion <;> cases hm : spec.metadata <;> simp [h, hm]

theorem specDefaulted_apiVersion_getD (spec : KubernetesObject) :
    (specDefaulted spec).apiVersion.getD "" = effApiVersion spec := by
  rw [specDefaulted_apiVersion]
  unfold effApiVersion
  split <;> rfl

theorem specDefaulted_kind_getD (spec : KubernetesObject) :
    (specDefaulted spec).kind.getD "" = effKind spec := by
  rw [specDefaulted_kind]; rfl

theorem nsFill_apiVersion (d : String) (res : V1APIResource) (action : KubernetesApiAction)
    (spec : KubernetesObject) : (nsFill d res action spec).apiVersion = spec.apiVersion := by
  simp only [nsFill]; split <;> rfl

theorem nsFill_kind (d : String) (res : V1APIResource) (action : KubernetesApiAction)
    (spec : KubernetesObject) : (nsFill d res action spec).kind = spec.kind := by
  simp only [nsFill]; split <;> rfl

theorem nsFill_rest (d : String) (res : V1APIResource) (action : KubernetesApiAction)
    (spec : KubernetesObject) : (nsFill d res action spec).rest = spec.rest := by
  simp only [nsFill]; split <;> rfl

theorem nsFill_metadata (d : String) (res : V1APIResource) (action : KubernetesApiAction)
    (spec : KubernetesObject) :
    (nsFill d res action spec).metadata =
      if res.namespaced && strFalsy (spec.metadata.getD {}).ns
          && !(action == KubernetesApiAction.list) then
        some { spec.metadata.getD {} with ns := some d }
      else spec.metadata := by
  simp only [nsFill]
  by_cases hc : (res.namespaced && strFalsy (spec.metadata.getD {}).ns
      && !(action == KubernetesApiAction.list)) = true
  · rw [if_pos hc, if_pos hc]
  · rw [if_neg hc, if_neg hc]

theorem specUriPath_eq {basePath defNs : String}
    {resourceOf : String → String → Option V1APIResource}
    {spec : KubernetesObject} {action : KubernetesApiAction} {res : V1APIResource}
    (hk : strFalsy spec.kind = false)
    (hres : resourceOf (effApiVersion spec) (effKind spec) = some res) :
    specUriPath basePath defNs resourceOf spec action =
      buildParts basePath res action (nsFill defNs res action (specDefaulted spec)) := by
  simp only [specUriPath, hk, Bool.false_eq_true, if_false]
  rw [specDefaulted_apiVersion_getD, specDefaulted_kind_getD, hres]

theorem nameSegs_single {action : KubernetesApiAction}
    (h : (!(action == KubernetesApiAction.create)
      && !(action == KubernetesApiAction.list)) = true) (s : KubernetesObject) :
    nameSegs action s = [encodeURIComponent ((s.metadata.getD {}).name.getD "")] := by
  cases action <;> simp_all [nameSegs]

theorem nameSegs_collection {action : KubernetesApiAction}
    (h : ¬((!(action == KubernetesApiAction.create)
      && !(action == KubernetesApiAction.list)) = true)) (s : KubernetesObject) :
    nameSegs action s = [] := by
  cases action <;> simp_all [nameSegs]

theorem buildParts_ok {basePath : String} {res : V1APIResource} {action : KubernetesApiAction}
    {s : KubernetesObject} {out : UriPathResult}
    (h : buildParts basePath res action s = Except.ok out) :
    out.spec = s ∧
    out.path = jsToLower (joinSlash ([basePath, rootSeg (s.apiVersion.getD ""),
      s.apiVersion.getD ""] ++ nsSegs res s ++ [res.name] ++ nameSegs action s)) := by
  simp only [buildParts] at h
  by_cases hsingle : (!(action == KubernetesApiAction.create)
      && !(action == KubernetesApiAction.list)) = true
  · rw [if_pos hsingle] at h
    by_cases hname : strFalsy ((s.metadata.getD {}).name) = true
    · rw [if_pos hname] at h
      exact absurd h (by simp)
    · rw [if_neg hname] at h
      injection h with h1
      subst h1
      refine ⟨rfl, ?_⟩
      rw [nameSegs_single hsingle]
      by_cases hns : (res.namespaced && !(strFalsy ((s.metadata.getD {}).ns))) = true
      · rw [if_pos hns]
        simp only [nsSegs, hns, if_true, apiVersionPath]
        simp [joinSlash_head3]
      · rw [if_neg hns]
        simp only [nsSegs, hns, if_neg, apiVersionPath]
        simp [joinSlash_head3, hns]
  · rw [if_neg hsingle] at h
    injection h with h1
    subst h1
    refine ⟨rfl, ?_⟩
    rw [nameSegs_collection hsingle]
    by_cases hns : (res.namespaced && !(strFalsy ((s.metadata.getD {}).ns))) = true
    · rw [if_pos hns]
      simp only [nsSegs, hns, if_true, apiVersionPath]
      simp [joinSlash_head3]
    · rw [if_neg hns]
      simp only [nsSegs, hns, if_neg, apiVersionPath]
      simp [joinSlash_head3, hns]

theorem specUriPath_ok_kind {basePath defNs : String}
    {resourceOf : String → String → Option V1APIResource} {spec : KubernetesObject}
    {action : KubernetesApiAction} {out : UriPathResult}
    (hok : specUriPath basePath defNs resourceOf spec action = Except.ok out) :
    strFalsy spec.kind = false := by
  cases hkx : strFalsy spec.kind with
  | false => rfl
  | true => simp [specUriPath, hkx] at hok

theorem beq_list_eq_false {action : KubernetesApiAction}
    (h : action ≠ KubernetesApiAction.list) :
    (action == KubernetesApiAction.list) = false := by
  cases action <;> simp_all

theorem nsFill_specDefaulted_metadata_getD (defNs : String) (res : V1APIResource)
    (action : KubernetesApiAction) (spec : KubernetesObject) :
    ((nsFill defNs res action (specDefaulted spec)).metadata.getD {}) =
      if res.namespaced && strFalsy (effNs spec) && !(action == KubernetesApiAction.list) then
        { spec.metadata.getD {} with ns := some defNs }
      else spec.metadata.getD {} := by
  simp only [nsFill_metadata, specDefaulted_metadata, Option.getD_some, effNs]
  by_cases hc : (res.namespaced && strFalsy (spec.metadata.getD {}).ns
      && !(action == KubernetesApiAction.list)) = true
  · rw [if_pos hc, if_pos hc]; simp
  · rw [if_neg hc, if_neg hc]; simp

/-! ## Claim C1 -/

/-- **C1.** For every spec with a non-empty kind that resolves to a
descriptor, the built URI path consists of, in order: the base path, the root
segment (`"apis"` if the apiVersion contains a `/` separator, else `"api"`),
the apiVersion, the pair `("namespaces", namespace)` exactly when the
descriptor is namespaced and a namespace is set, the descriptor's plural
name, and the object name exactly when the action is read, replace, patch or
delete; the namespace and name segments are percent-encoded and the entire
joined path is lower-cased at the end. -/
theorem specUriPath_builds_claimed_segments
    {basePath defNs : String} {resourceOf : String → String → Option V1APIResource}
    {spec : KubernetesObject} {action : KubernetesApiAction} {res : V1APIResource}
    {out : UriPathResult}
    (hres : resourceOf (effApiVersion spec) (effKind spec) = some res)
    (hok : specUriPath basePath defNs resourceOf spec action = Except.ok out) :
    out.path = jsToLower (joinSlash
      ([basePath, rootSeg (out.spec.apiVersion.getD ""), out.spec.apiVersion.getD ""]
        ++ nsSegs res out.spec ++ [res.name] ++ nameSegs action out.spec)) := by
  have hk := specUriPath_ok_kind hok
  rw [specUriPath_eq hk hres] at hok
  obtain ⟨hspec, hpath⟩ := buildParts_ok hok
  rw [hspec, hpath]

/-- Witness for C1 at a concrete resolver, spec and action. -/
theorem specUriPath_builds_claimed_segments_witness :
    specUriPath "https://h" "default" sampleResolver sampleSpec KubernetesApiAction.read
      = Except.ok ⟨sampleSpec, "https://h/apis/apps/v1/namespaces/default/deployments/foo"⟩ ∧
    ("https://h/apis/apps/v1/namespaces/default/deployments/foo" : String) =
      jsToLower (joinSlash (["https://h", rootSeg "apps/v1", "apps/v1"]
        ++ nsSegs deploymentRes sampleSpec ++ ["deployments"]
        ++ nameSegs KubernetesApiAction.read sampleSpec)) := by
  constructor
  · decide
  · exact @specUriPath_builds_claimed_segments "https://h" "default" sampleResolver
      sampleSpec KubernetesApiAction.read deploymentRes
      ⟨sampleSpec, "https://h/apis/apps/v1/namespaces/default/deployments/foo"⟩
      (by decide) (by decide)

/-! ## Claim C4 -/

/-- **C4.** If apiVersion is absent it is defaulted to `"v1"` (not an
error — path building behaves exactly as if the caller had written `"v1"`);
if the descriptor is namespaced, the action is not list, and no namespace is
set, the namespace is filled with the configured default namespace; for
action=list no name segment is ever appended even if a name is supplied, and
the namespace is never auto-filled. -/
theorem specUriPath_default_rules
    {basePath defNs : String} {resourceOf : String → String → Option V1APIResource}
    {spec : KubernetesObject} {action : KubernetesApiAction} :
    (strFalsy spec.apiVersion = true →
      specUriPath basePath defNs resourceOf spec action =
        specUriPath basePath defNs resourceOf { spec with apiVersion := some "v1" } action) ∧
    (∀ res out, resourceOf (effApiVersion spec) (effKind spec) = some res →
      res.namespaced = true → action ≠ KubernetesApiAction.list →
      strFalsy (effNs spec) = true →
      specUriPath basePath defNs resourceOf spec action = Except.ok out →
      (out.spec.metadata.getD {}).ns = some defNs) ∧
    (∀ res out, action = KubernetesApiAction.list →
      resourceOf (effApiVersion spec) (effKind spec) = some res →
      specUriPath basePath defNs resourceOf spec action = Except.ok out →
      (out.spec.metadata.getD {}).ns = effNs spec ∧
      out.path = jsToLower (joinSlash
        ([basePath, rootSeg (out.spec.apiVersion.getD ""), out.spec.apiVersion.getD ""]
          ++ nsSegs res out.spec ++ [res.name]))) := by
  refine ⟨?_, ?_, ?_⟩
  · intro h
    have hv : strFalsy (some "v1") = false := by decide
    have hsd : specDefaulted spec = specDefaulted { spec with apiVersion := some "v1" } := by
      simp [specDefaulted, h, hv]
    simp only [specUriPath, hsd]
  · intro res out hres hnsd hact hnsf hok
    have hk := specUriPath_ok_kind hok
    rw [specUriPath_eq hk hres] at hok
    obtain ⟨hspec, _⟩ := buildParts_ok hok
    rw [hspec, nsFill_specDefaulted_metadata_getD]
    rw [if_pos (by simp [hnsd, hnsf, beq_list_eq_false hact])]
  · intro res out hact hres hok
    subst hact
    have hk := specUriPath_ok_kind hok
    rw [specUriPath_eq hk hres] at hok
    obtain ⟨hspec, hpath⟩ := buildParts_ok hok
    constructor
    · rw [hspec, nsFill_specDefaulted_metadata_getD]
      simp [effNs]
    · rw [hspec, hpath]
      simp [nameSegs]

/-- Witness for C4 at concrete inputs: an absent apiVersion builds the core
path with root `api` and version `v1`, the default namespace is filled in,
and a list with a supplied name appends no name segment. -/
theorem specUriPath_default_rules_witness :
    ((specUriPath "https://h" "ctxns" coreResolver
        { kind := some "Pod", metadata := some { name := some "Foo" } }
        KubernetesApiAction.read =
      specUriPath "https://h" "ctxns" coreResolver
        { apiVersion := some "v1", kind := some "Pod",
          metadata := some { name := some "Foo" } }
        KubernetesApiAction.read) ∧
      ((filledPodResult.spec.metadata.getD {}).ns = some "ctxns") ∧
      ((listPodResult.spec.metadata.getD {}).ns = some "Given") ∧
      listPodResult.path = jsToLower (joinSlash
        (["https://h", rootSeg "v1", "v1"] ++ nsSegs podRes listPodResult.spec
          ++ ["pods"]))) := by
  refine ⟨?_, ?_, ?_, ?_⟩
  · exact (@specUriPath_default_rules "https://h" "ctxns" coreResolver
      { kind := some "Pod", metadata := some { name := some "Foo" } }
      KubernetesApiAction.read).1 (by decide)
  · exact (@specUriPath_default_rules "https://h" "ctxns" coreResolver
      { kind := some "Pod", metadata := some { name := some "Foo" } }
      KubernetesApiAction.read).2.1 podRes filledPodResult (by decide) (by decide)
      (by decide) (by decide) (by decide)
  · exact ((@specUriPath_default_rules "https://h" "ctxns" coreResolver
      { apiVersion := some "v1", kind := some "Pod",
        metadata := some { name := some "Given", ns := some "Given" } }
      KubernetesApiAction.list).2.2 podRes listPodResult rfl (by decide) (by decide)).1
  · exact ((@specUriPath_default_rules "https://h" "ctxns" coreResolver
      { apiVersion := some "v1", kind := some "Pod",
        metadata := some { name := some "Given", ns := some "Given" } }
      KubernetesApiAction.list).2.2 podRes listPodResult rfl (by decide) (by decide)).2

/-! ## Claim C10 -/

/-- **C10.** After a successful path build, the (in-place mutated) spec has
its apiVersion set (to `v1` if it was absent), has a metadata object even if
none was supplied, and for a namespaced resource with a non-list action has
its namespace set (to the default namespace exactly when it was unset); no
other fields of the caller's spec are changed: kind, the remaining top-level
fields, metadata.name and the remaining metadata fields are untouched, and
the namespace is untouched whenever the fill condition does not hold. -/
theorem specUriPath_mutation_frame
    {basePath defNs : String} {resourceOf : String → String → Option V1APIResource}
    {spec : KubernetesObject} {action : KubernetesApiAction} {res : V1APIResource}
    {out : UriPathResult}
    (hres : resourceOf (effApiVersion spec) (effKind spec) = some res)
    (hok : specUriPath basePath defNs resourceOf spec action = Except.ok out) :
    out.spec.apiVersion = (if strFalsy spec.apiVersion then some "v1" else spec.apiVersion) ∧
    out.spec.metadata.isSome = true ∧
    out.spec.kind = spec.kind ∧
    out.spec.rest = spec.rest ∧
    (out.spec.metadata.getD {}).name = effName spec ∧
    (out.spec.metadata.getD {}).mrest = (spec.metadata.getD {}).mrest ∧
    (res.namespaced = true → action ≠ KubernetesApiAction.list →
      (out.spec.metadata.getD {}).ns =
        (if strFalsy (effNs spec) then some defNs else effNs spec)) ∧
    (¬(res.namespaced = true ∧ strFalsy (effNs spec) = true
        ∧ action ≠ KubernetesApiAction.list) →
      (out.spec.metadata.getD {}).ns = effNs spec) := by
  have hk := specUriPath_ok_kind hok
  rw [specUriPath_eq hk hres] at hok
  obtain ⟨hspec, _⟩ := buildParts_ok hok
  rw [hspec]
  refine ⟨?_, ?_, ?_, ?_, ?_, ?_, ?_, ?_⟩
  · rw [nsFill_apiVersion, specDefaulted_apiVersion]
  · rw [nsFill_metadata]
    split <;> simp [specDefaulted_metadata]
  · rw [nsFill_kind, specDefaulted_kind]
  · rw [nsFill_rest, specDefaulted_rest]
  · rw [nsFill_specDefaulted_metadata_getD]
    split <;> simp [effName]
  · rw [nsFill_specDefaulted_metadata_getD]
    split <;> simp
  · intro hnsd hact
    rw [nsFill_specDefaulted_metadata_getD]
    by_cases hnsf : strFalsy (effNs spec) = true
    · rw [if_pos (by simp [hnsd, hnsf, beq_list_eq_false hact]), if_pos hnsf]
    · rw [if_neg (by simp [hnsf]), if_neg hnsf]
      rfl
  · intro hneg
    rw [nsFill_specDefaulted_metadata_getD]
    rw [if_neg ?_]
    · rfl
    · intro hc
      apply hneg
      refine ⟨?_, ?_, ?_⟩
      · exact (Bool.and_eq_true_iff.mp (Bool.and_eq_true_iff.mp hc).1).1
      · exact (Bool.and_eq_true_iff.mp (Bool.and_eq_true_iff.mp hc).1).2
      · intro hl
        subst hl
        simp at hc

/-- Witness for C10: the read of Pod Foo with absent apiVersion and
namespace mutates the spec to apiVersion v1 and namespace ctxns, leaving
name and kind untouched. -/
theorem specUriPath_mutation_frame_witness :
    filledPodResult.spec.apiVersion
        = (if strFalsy (none : Option String) then some "v1" else none) ∧
    filledPodResult.spec.metadata.isSome = true ∧
    filledPodResult.spec.kind = some "Pod" ∧
    (filledPodResult.spec.metadata.getD {}).name = some "Foo" := by
  have h := @specUriPath_mutation_frame "https://h" "ctxns" coreResolver
    { kind := some "Pod", metadata := some { name := some "Foo" } }
    KubernetesApiAction.read podRes filledPodResult (by decide) (by decide)
  exact ⟨h.1, h.2.1, h.2.2.1, h.2.2.2.2.1⟩

/-! ## Claim C5 -/

/-- **C5.** Path building fails with an `InvalidSpec` error when kind is
empty, and when the action is a single-object action (read, replace, patch,
delete) but name is empty; a resolver not-found fails with an
`UnknownResource` error; each of these errors is surfaced with zero network
requests attempted for the requested operation. -/
theorem operation_fails_fast
    {basePath defNs : String} {resourceOf : String → String → Option V1APIResource}
    {spec : KubernetesObject} {op : KubernetesApiAction} {ev : TransportEvent} :
    (strFalsy spec.kind = true →
      runOperation basePath defNs resourceOf spec op ev =
        ⟨Except.error (OperationError.spec
          (SpecError.invalidSpec "Required spec property kind is not set")), 0⟩) ∧
    (strFalsy spec.kind = false →
      resourceOf (effApiVersion spec) (effKind spec) = none →
      runOperation basePath defNs resourceOf spec op ev =
        ⟨Except.error (OperationError.spec
          (SpecError.unknownResource (effApiVersion spec) (effKind spec))), 0⟩) ∧
    (∀ res, (op = KubernetesApiAction.read ∨ op = KubernetesApiAction.replace
        ∨ op = KubernetesApiAction.patch ∨ op = KubernetesApiAction.delete) →
      strFalsy spec.kind = false →
      resourceOf (effApiVersion spec) (effKind spec) = some res →
      strFalsy (effName spec) = true →
      runOperation basePath defNs resourceOf spec op ev =
        ⟨Except.error (OperationError.spec
          (SpecError.invalidSpec "Required spec property name is not set")), 0⟩) := by
  refine ⟨?_, ?_, ?_⟩
  · intro h
    simp [runOperation, performRequest, specUriPath, h]
  · intro hk hnone
    simp only [runOperation, performRequest, specUriPath, hk, Bool.false_eq_true, if_false]
    rw [specDefaulted_apiVersion_getD, specDefaulted_kind_getD, hnone]
  · intro res hop hk hres hname
    simp only [runOperation]
    rw [specUriPath_eq hk hres]
    have hsingle : (!(op == KubernetesApiAction.create)
        && !(op == KubernetesApiAction.list)) = true := by
      rcases hop with h | h | h | h <;> subst h <;> decide
    have hnm : strFalsy (((nsFill defNs res op (specDefaulted spec)).metadata.getD {}).name)
        = true := by
      rw [nsFill_specDefaulted_metadata_getD]
      split <;> simpa [effName] using hname
    simp only [buildParts, hsingle, if_true, hnm, performRequest]

/-- Witness for C5: each of the three error paths at a concrete input, all
with zero operation requests. -/
theorem operation_fails_fast_witness :
    (runOperation "https://h" "default" coreResolver {} KubernetesApiAction.read
        (TransportEvent.transportError "boom") =
      ⟨Except.error (OperationError.spec
        (SpecError.invalidSpec "Required spec property kind is not set")), 0⟩) ∧
    (runOperation "https://h" "default" coreResolver
        { apiVersion := some "batch/v1", kind := some "Job" } KubernetesApiAction.read
        (TransportEvent.transportError "boom") =
      ⟨Except.error (OperationError.spec
        (SpecError.unknownResource "batch/v1" "Job")), 0⟩) ∧
    (runOperation "https://h" "default" coreResolver
        { apiVersion := some "v1", kind := some "Pod" } KubernetesApiAction.delete
        (TransportEvent.transportError "boom") =
      ⟨Except.error (OperationError.spec
        (SpecError.invalidSpec "Required spec property name is not set")), 0⟩) := by
  refine ⟨?_, ?_, ?_⟩
  · exact (@operation_fails_fast "https://h" "default" coreResolver {}
      KubernetesApiAction.read (TransportEvent.transportError "boom")).1 (by decide)
  · exact (@operation_fails_fast "https://h" "default" coreResolver
      { apiVersion := some "batch/v1", kind := some "Job" }
      KubernetesApiAction.read (TransportEvent.transportError "boom")).2.1
      (by decide) (by decide)
  · exact (@operation_fails_fast "https://h" "default" coreResolver
      { apiVersion := some "v1", kind := some "Pod" }
      KubernetesApiAction.delete (TransportEvent.transportError "boom")).2.2 podRes
      (by simp) (by decide) (by decide) (by decide)

/-! ## Claim C2 -/

/-- **C2.** If the cache holds an entry for the groupVersion containing a
descriptor for the kind, `resource` returns it with no fetch; on cache miss
or kind-not-found-within-the-cached-group it performs exactly one metadata
fetch, replaces the cached set for that groupVersion with the fresh result,
and returns the result of searching the fresh set (none when the kind is
still absent); a second resolve of a pair that resolved performs no
additional fetch and leaves the cache unchanged. -/
theorem resource_cache_behavior
    (fetch : String → V1APIResourceList) (cache : ResourceCache) (gv kind : String) :
    (∀ l r, jsGet cache gv = some l → findKind l kind = some r →
      resource fetch cache gv kind = ⟨some r, cache, 0⟩) ∧
    ((jsGet cache gv = none ∨ ∃ l, jsGet cache gv = some l ∧ findKind l kind = none) →
      resource fetch cache gv kind =
        ⟨findKind (fetch gv) kind, jsSet cache gv (fetch gv), 1⟩) ∧
    ((jsGet cache gv = none ∨ ∃ l, jsGet cache gv = some l ∧ findKind l kind = none) →
      jsGet (resource fetch cache gv kind).cache gv = some (fetch gv)) ∧
    (∀ r, (resource fetch cache gv kind).result = some r →
      resource fetch (resource fetch cache gv kind).cache gv kind =
        ⟨some r, (resource fetch cache gv kind).cache, 0⟩) := by
  refine ⟨?_, ?_, ?_, ?_⟩
  · intro l r hl hr
    simp [resource, hl, hr]
  · rintro (hnone | ⟨l, hl, hnf⟩)
    · simp [resource, hnone]
    · simp [resource, hl, hnf]
  · rintro (hnone | ⟨l, hl, hnf⟩)
    · simp [resource, hnone, jsGet_jsSet_self]
    · simp [resource, hl, hnf, jsGet_jsSet_self]
  · intro r hr
    cases hc : jsGet cache gv with
    | none =>
      simp only [resource, hc] at hr ⊢
      rw [jsGet_jsSet_self]
      simp [hr]
    | some l =>
      cases hf : findKind l kind with
      | none =>
        simp only [resource, hc, hf] at hr ⊢
        rw [jsGet_jsSet_self]
        simp [hr]
      | some r0 =>
        simp only [resource, hc, hf] at hr ⊢
        cases hr
        simp [hc, hf]

/-- Witness for C2: a cache hit with zero fetches, a miss performing one
fetch and replacing the entry, and a second resolve of the now-cached pair
with zero fetches. -/
theorem resource_cache_behavior_witness :
    (resource sampleFetch sampleCacheAfter "apps/v1" "Deployment" =
      ⟨some deploymentRes, sampleCacheAfter, 0⟩) ∧
    (resource sampleFetch [] "apps/v1" "Deployment" =
      ⟨some deploymentRes, sampleCacheAfter, 1⟩) ∧
    (jsGet (resource sampleFetch [] "apps/v1" "Deployment").cache "apps/v1" =
      some ⟨[deploymentRes]⟩) ∧
    (resource sampleFetch (resource sampleFetch [] "apps/v1" "Deployment").cache
        "apps/v1" "Deployment" =
      ⟨some deploymentRes, (resource sampleFetch [] "apps/v1" "Deployment").cache, 0⟩) := by
  refine ⟨?_, ?_, ?_, ?_⟩
  · exact (resource_cache_behavior sampleFetch sampleCacheAfter "apps/v1" "Deployment").1
      ⟨[deploymentRes]⟩ deploymentRes (by decide) (by decide)
  · exact (resource_cache_behavior sampleFetch [] "apps/v1" "Deployment").2.1
      (Or.inl (by decide))
  · exact (resource_cache_behavior sampleFetch [] "apps/v1" "Deployment").2.2.1
      (Or.inl (by decide))
  · exact (resource_cache_behavior sampleFetch [] "apps/v1" "Deployment").2.2.2
      deploymentRes (by decide)

/-! ## Claim C6 -/

/-- **C6.** A response with a non-2xx HTTP status code is surfaced as an
`HttpError` carrying the status code and the decoded status body, not as a
generic transport error; transport-level connection failures are surfaced
unmodified to the caller. -/
theorem requestPromise_error_surface (declaredType : Option String) (code : Nat)
    (raw : ResponseBody) (e : String) :
    (¬(200 ≤ code ∧ code ≤ 299) →
      requestPromise declaredType (TransportEvent.response (some code) raw) =
        Except.error (RequestError.http (some code)
          (deserialize raw (requestPromiseDecodeType declaredType raw)))) ∧
    requestPromise declaredType (TransportEvent.transportError e) =
      Except.error (RequestError.transport e) := by
  constructor
  · intro h
    have h2 : is2xx (some code) = false := by
      simp only [is2xx]
      by_cases h1 : 200 ≤ code
      · have h3 : ¬code ≤ 299 := fun hc => h ⟨h1, hc⟩
        simp [h1, h3]
      · simp [h1]
    simp [requestPromise, h2]
  · rfl

/-- Witness for C6: a 409 Conflict with a status body surfaces as an
`HttpError` with statusCode 409 and the decoded body. -/
theorem requestPromise_error_surface_witness :
    ¬(200 ≤ 409 ∧ 409 ≤ 299) ∧
    requestPromise none (TransportEvent.response (some 409) statusBody409) =
      Except.error (RequestError.http (some 409) (deserialize statusBody409 "V1Status")) := by
  constructor
  · decide
  · exact (requestPromise_error_surface none 409 statusBody409 "x").1 (by decide)

/-! ## Claim C7 -/

/-- **C7.** For every operation, the request headers default the `accept`
header to `application/json`, and for patch the `content-type` header to
`application/strategic-merge-patch+json`; any header value supplied by the
caller overrides the corresponding default. -/
theorem generateHeaders_defaults_and_overrides
    (op : KubernetesApiAction) (d o : JsRecord String) :
    (lastVal o "accept" = none →
      jsGet (opHeaders op d o) "accept" = some "application/json") ∧
    (op = KubernetesApiAction.patch → lastVal o "content-type" = none →
      jsGet (opHeaders op d o) "content-type" = some strategicMergePatchMediaType) ∧
    (∀ k v, lastVal o k = some v → jsGet (opHeaders op d o) k = some v) := by
  refine ⟨?_, ?_, ?_⟩
  · intro h
    simp only [opHeaders, generateHeaders]
    rw [jsGet_jsAssign, h]
    by_cases hp : (opHeaderAction op == "PATCH") = true
    · rw [if_pos hp, jsGet_jsSet_of_ne _ (by decide) _, jsGet_jsSet_self]
    · rw [if_neg hp, jsGet_jsSet_self]
  · intro hop h
    subst hop
    simp only [opHeaders, generateHeaders, opHeaderAction]
    rw [jsGet_jsAssign, h]
    rw [if_pos (by decide), jsGet_jsSet_self]
  · intro k v h
    simp only [opHeaders, generateHeaders]
    rw [jsGet_jsAssign, h]

/-- Witness for C7: with no caller headers a patch gets both defaults; a
caller-supplied content-type overrides the strategic-merge default. -/
theorem generateHeaders_defaults_and_overrides_witness :
    (jsGet (opHeaders KubernetesApiAction.patch [] []) "accept"
      = some "application/json") ∧
    (jsGet (opHeaders KubernetesApiAction.patch [] []) "content-type"
      = some strategicMergePatchMediaType) ∧
    (jsGet (opHeaders KubernetesApiAction.patch []
        [("content-type", jsonPatchMediaType)]) "content-type"
      = some jsonPatchMediaType) := by
  refine ⟨?_, ?_, ?_⟩
  · exact (generateHeaders_defaults_and_overrides KubernetesApiAction.patch [] []).1
      (by decide)
  · exact (generateHeaders_defaults_and_overrides KubernetesApiAction.patch [] []).2.1
      rfl (by decide)
  · exact (generateHeaders_defaults_and_overrides KubernetesApiAction.patch []
      [("content-type", jsonPatchMediaType)]).2.2 "content-type" jsonPatchMediaType
      (by decide)

/-! ## Claim C3 -/

/-- **C3 counterexample.** The claim fails for `delete`: a delete response
whose body carries apiVersion `v1` and kind `Pod` is decoded with the fixed
declared shape `V1Status`, not with `V1Pod`, the shape derived from the
response's own apiVersion/kind. -/
theorem delete_decode_type_counterexample :
    requestPromise (opDeclaredType KubernetesApiAction.delete)
        (TransportEvent.response (some 200) ⟨some "v1", some "Pod", []⟩) =
      Except.ok ⟨⟨some "v1", some "Pod", []⟩, "V1Status"⟩ ∧
    getSerializationType (some "v1") (some "Pod") = "V1Pod" ∧
    ("V1Status" : String) ≠ "V1Pod" := by
  refine ⟨by decide, by decide, by decide⟩

/-- **C3 amended.** For create, read, replace, patch and list the response
body is decoded using the shape name derived from the response body's own
apiVersion and kind; for delete the body is decoded as `V1Status` regardless
of the response body. -/
theorem requestPromise_decode_type_rule
    (op : KubernetesApiAction) (code : Option Nat) (raw : ResponseBody) :
    (op ≠ KubernetesApiAction.delete →
      decodedBody? (requestPromise (opDeclaredType op) (TransportEvent.response code raw)) =
        some (deserialize raw (getSerializationType raw.apiVersion raw.kind))) ∧
    (op = KubernetesApiAction.delete →
      decodedBody? (requestPromise (opDeclaredType op) (TransportEvent.response code raw)) =
        some (deserialize raw "V1Status")) := by
  constructor
  · intro h
    have hd : opDeclaredType op = none := by
      cases op <;> simp_all [opDeclaredType]
    by_cases h2 : is2xx code = true <;>
      simp [requestPromise, hd, requestPromiseDecodeType, decodedBody?, h2]
  · intro h
    subst h
    by_cases h2 : is2xx code = true <;>
      simp [requestPromise, opDeclaredType, requestPromiseDecodeType, decodedBody?, h2]

/-- Witness for the amended C3: a create response with a Pod body decodes as
`V1Pod`; a delete response with the same body decodes as `V1Status`. -/
theorem requestPromise_decode_type_rule_witness :
    decodedBody? (requestPromise (opDeclaredType KubernetesApiAction.create)
        (TransportEvent.response (some 201) ⟨some "v1", some "Pod", []⟩)) =
      some (deserialize ⟨some "v1", some "Pod", []⟩
        (getSerializationType (some "v1") (some "Pod"))) ∧
    decodedBody? (requestPromise (opDeclaredType KubernetesApiAction.delete)
        (TransportEvent.response (some 200) ⟨some "v1", some "Pod", []⟩)) =
      some (deserialize ⟨some "v1", some "Pod", []⟩ "V1Status") := by
  constructor
  · exact (requestPromise_decode_type_rule KubernetesApiAction.create (some 201)
      ⟨some "v1", some "Pod", []⟩).1 (by decide)
  · exact (requestPromise_decode_type_rule KubernetesApiAction.delete (some 200)
      ⟨some "v1", some "Pod", []⟩).2 rfl

/-! ## Claim C8 -/

/-- **C8 counterexample.** The claim fails on the code: with a caller
Content-Type selecting a JSON-patch (a non-apply patch media type), a
supplied force flag is still attached to the outgoing request's query
parameters. -/
theorem patch_force_attached_counterexample :
    jsGet (patchRequestOptions [] "/p" none none none (some true)
        [("content-type", jsonPatchMediaType)]).headers "content-type"
      = some jsonPatchMediaType ∧
    jsGet (patchRequestOptions [] "/p" none none none (some true)
        [("content-type", jsonPatchMediaType)]).qs "force" = some "true" := by
  refine ⟨by decide, by decide⟩

/-- **C8 amended.** A supplied force flag is always attached to the outgoing
patch request's query parameters, unconditionally on the request's
Content-Type (the source passes it through for all patch media types). -/
theorem patch_force_passthrough
    (d : JsRecord String) (uri : String) (pretty dryRun fieldManager : Option String)
    (b : Bool) (o : JsRecord String) :
    jsGet (patchRequestOptions d uri pretty dryRun fieldManager (some b) o).qs "force"
      = some (jsBoolString b) := by
  simp only [patchRequestOptions, patchQueryParameters]
  rw [jsGet_jsSet_self]

/-! ## Claim C9 -/

/-- **C9 counterexample.** The claim fails on the code: a watch session for
v1 Pod delivers an event whose object carries apiVersion `apps/v1` and kind
`Deployment` decoded with `V1Pod` — the shape derived from the caller's
watched resource — not with `V1Deployment`, the shape derived from the
event object's own apiVersion/kind. -/
theorem watch_decode_type_counterexample :
    (watchDeliveredObject "v1" "Pod" ⟨some "apps/v1", some "Deployment", []⟩).typeName
      = "V1Pod" ∧
    getSerializationType (some "apps/v1") (some "Deployment") = "V1Deployment" ∧
    ("V1Pod" : String) ≠ "V1Deployment" := by
  refine ⟨by decide, by decide, by decide⟩

/-- **C9 amended.** Every event object delivered by the watch callback is
re-decoded using the serialization type computed once from the caller's
watched resource apiVersion/kind; the type is independent of the event
object's own apiVersion/kind. -/
theorem watch_decode_uses_request_type (av k : String) (obj obj2 : ResponseBody) :
    (watchDeliveredObject av k obj).typeName = getSerializationType (some av) (some k) ∧
    (watchDeliveredObject av k obj).typeName = (watchDeliveredObject av k obj2).typeName ∧
    (watchDeliveredObject av k obj).raw = obj :=
  ⟨rfl, rfl, rfl⟩

end K8sClient
